import Mathlib

/-!
# Verification of the drova-dash analytics core

Shallow embedding of the interval reconstructor (`src/app/pipeline.py`),
the metrics engine (`src/app/aggregations.py`) and the sidebar filter
(`src/app/filters.py`), together with proofs of the claims about them.

Modelling conventions:
* a pandas cell that may be missing (NaN/NaT/None) is an `Option`;
* timestamps are integers (seconds); `pd.Series.dt.normalize`
  composed with day arithmetic is modelled by the day index `t / 86400`
  (Lean's `Int` division is floor division for a positive divisor,
  matching pandas' day flooring);
* float quantities (durations, hours, percentages) are rationals; where
  IEEE division by zero matters it is modelled explicitly by `PFloat`;
* each dataframe is a list of row structures holding exactly the
  columns the modelled function touches.
-/

/-- `pd.notna` on a possibly-missing cell. -/
def pdNotna {α : Type} (v : Option α) : Bool := v.isSome

/-- Pandas scalar `!=` between possibly-missing cells, as it behaves inside
`build_busy_intervals`: a missing value (NaN) compares unequal to every value,
including another missing value (`NaN != NaN` is `True` in Python). -/
def pdNeq {α : Type} [DecidableEq α] (a b : Option α) : Bool :=
  match a, b with
  | some x, some y => decide (x ≠ y)
  | _, _ => true

/-- Python's `str.upper()` restricted to the ASCII range, character by
character (the only states compared against are ASCII literals). -/
def upperStr (s : String) : String := ⟨s.data.map Char.toUpper⟩

/-! ## Interval Reconstructor (`src/app/pipeline.py`, `build_busy_intervals`)

The source iterates the events of one station (already sorted by
`(changed_at, id)`) keeping `current_product`/`start_ts`; we embed that
loop per station.  The FSM state is `none` (idle: `current_product is
None`) or `some (p, s)` (busy since `s` with product cell `p`; `p` itself
may be a missing value, which the source code can store after a BUSY
event without a product id). -/

/-- One row of the raw event table, restricted to the columns read by
`build_busy_intervals` for a fixed station. -/
structure ChangeEvent where
  new_state : String
  new_product_id : Option Nat
  changed_at : Int
  deriving Repr, DecidableEq

/-- One emitted busy interval (the station id is fixed by the grouping). -/
structure BusyInterval where
  product_id : Option Nat
  started_at : Int
  ended_at : Option Int
  deriving Repr, DecidableEq

/-- The loop state: `none` = idle, `some (p, s)` = busy with product cell
`p` since timestamp `s`. -/
abbrev ScanState := Option (Option Nat × Int)

/-- The body of the per-event loop of `build_busy_intervals`: given the
current state and one event, return the next state and the records
appended by this iteration. -/
def stepEvent (st : ScanState) (e : ChangeEvent) : ScanState × List BusyInterval :=
  match st with
  | none =>
      -- looking for a BUSY start
      if upperStr e.new_state = "BUSY" ∧ pdNotna e.new_product_id then
        (some (e.new_product_id, e.changed_at), [])
      else
        (none, [])
  | some (p, s) =>
      -- currently in BUSY
      if upperStr e.new_state = "BUSY" then
        if pdNeq e.new_product_id p then
          -- product changed while BUSY -> close and reopen
          (some (e.new_product_id, e.changed_at), [⟨p, s, some e.changed_at⟩])
        else
          (some (p, s), [])
      else
        -- leaving BUSY -> close interval
        (none, [⟨p, s, some e.changed_at⟩])

/-- Run the event loop from a state; at end of stream a still-busy state
emits the trailing open interval (`ended_at = NaT`). -/
def runEvents : ScanState → List ChangeEvent → List BusyInterval
  | st, [] =>
      (match st with
       | none => []
       | some (p, s) => [⟨p, s, none⟩])
  | st, e :: rest => (stepEvent st e).2 ++ runEvents (stepEvent st e).1 rest

/-- `build_busy_intervals` for a single station: the records produced by
one iteration of the `groupby("uuid")` loop, in emission order (the final
global sort is by `(uuid, started_at)`, and the emitted list is already
nondecreasing in `started_at`). -/
def build_busy_intervals (events : List ChangeEvent) : List BusyInterval :=
  runEvents none events

/-- C1 — `build_busy_intervals` implements the specified state machine:
from IDLE a BUSY event carrying product `p` opens an interval at its
timestamp; from BUSY(`p`) a BUSY event carrying a different product `q`
closes `[start, changed_at)` with `p` and immediately reopens with `q` at
`changed_at`; a non-BUSY event closes `[start, changed_at)` and returns to
IDLE; and the concrete sequence (t0, to BUSY with P1), (t1, BUSY to BUSY
with P2), (t2, BUSY to IDLE) yields exactly `[P1, t0, t1)` and
`[P2, t1, t2)`. -/
theorem c1_interval_state_machine :
    (∀ (e : ChangeEvent) (p : Nat),
        upperStr e.new_state = "BUSY" → e.new_product_id = some p →
        stepEvent none e = (some (some p, e.changed_at), [])) ∧
    (∀ (e : ChangeEvent) (p q : Nat) (s : Int),
        upperStr e.new_state = "BUSY" → e.new_product_id = some q → q ≠ p →
        stepEvent (some (some p, s)) e =
          (some (some q, e.changed_at),
            [{ product_id := some p, started_at := s, ended_at := some e.changed_at }])) ∧
    (∀ (e : ChangeEvent) (p : Nat) (s : Int),
        upperStr e.new_state ≠ "BUSY" →
        stepEvent (some (some p, s)) e =
          (none, [{ product_id := some p, started_at := s, ended_at := some e.changed_at }])) ∧
    (∀ (t0 t1 t2 : Int) (P1 P2 : Nat), P1 ≠ P2 →
        build_busy_intervals
            [⟨"BUSY", some P1, t0⟩, ⟨"BUSY", some P2, t1⟩, ⟨"IDLE", none, t2⟩] =
          [{ product_id := some P1, started_at := t0, ended_at := some t1 },
           { product_id := some P2, started_at := t1, ended_at := some t2 }]) := by
  refine ⟨?_, ?_, ?_, ?_⟩
  · intro e p hb hp
    simp [stepEvent, hb, hp, pdNotna]
  · intro e p q s hb hp hne
    simp [stepEvent, hb, hp, pdNeq, hne]
  · intro e p s hb
    simp [stepEvent, hb]
  · intro t0 t1 t2 P1 P2 hne
    have hb : upperStr "BUSY" = "BUSY" := by decide
    have hi : ¬ (upperStr "IDLE" = "BUSY") := by decide
    simp [build_busy_intervals, runEvents, stepEvent, hb, hi, pdNotna, pdNeq,
      Ne.symm hne]

/-- Witness for C1 at concrete inputs. -/
theorem c1_interval_state_machine_witness :
    stepEvent none ⟨"BUSY", some 5, 100⟩ = (some (some 5, 100), []) ∧
    build_busy_intervals
        [⟨"BUSY", some 1, 0⟩, ⟨"BUSY", some 2, 5⟩, ⟨"IDLE", none, 9⟩] =
      [{ product_id := some 1, started_at := 0, ended_at := some 5 },
       { product_id := some 2, started_at := 5, ended_at := some 9 }] :=
  ⟨c1_interval_state_machine.1 ⟨"BUSY", some 5, 100⟩ 5 (by decide) rfl,
   c1_interval_state_machine.2.2.2 0 5 9 1 2 (by decide)⟩

/-- C9 — while in state BUSY(`p`), a BUSY event with a missing
`new_product_id` is not dropped: the missing value compares unequal to
`p`, so the current interval is closed at the event's timestamp and a new
interval opens whose product cell is the missing value; the
drop-malformed-BUSY rule applies only in the IDLE state. -/
theorem c9_missing_product_reopens :
    (∀ (e : ChangeEvent) (p : Nat) (s : Int),
        upperStr e.new_state = "BUSY" → e.new_product_id = none →
        stepEvent (some (some p, s)) e =
          (some (none, e.changed_at),
            [{ product_id := some p, started_at := s, ended_at := some e.changed_at }])) ∧
    (∀ (e : ChangeEvent),
        upperStr e.new_state = "BUSY" → e.new_product_id = none →
        stepEvent none e = (none, [])) := by
  constructor
  · intro e p s hb hp
    simp [stepEvent, hb, hp, pdNeq]
  · intro e hb hp
    simp [stepEvent, hb, hp, pdNotna]

/-- Witness for C9 at a concrete input. -/
theorem c9_missing_product_reopens_witness :
    stepEvent (some (some 7, 3)) ⟨"BUSY", none, 11⟩ =
      (some (none, 11),
        [{ product_id := some 7, started_at := 3, ended_at := some 11 }]) ∧
    stepEvent none ⟨"BUSY", none, 11⟩ = (none, []) :=
  ⟨c9_missing_product_reopens.1 ⟨"BUSY", none, 11⟩ 7 3 (by decide) rfl,
   c9_missing_product_reopens.2 ⟨"BUSY", none, 11⟩ (by decide) rfl⟩

/-! ## C3 — per-station interval invariants -/

/-- Chronological order of a station's event sequence (the precondition
`clean_df` establishes by sorting on `(uuid, changed_at, id)`). -/
def SortedEvents (events : List ChangeEvent) : Prop :=
  events.Pairwise (fun a b => a.changed_at ≤ b.changed_at)

/-- `ChainedFrom t l`: every interval of `l` starts at or after `t`, each
closed interval ends at or after its start, consecutive intervals chain
(an interval's end is at or before the next start), and an open interval
can only terminate the list. -/
def ChainedFrom : Int → List BusyInterval → Prop
  | _, [] => True
  | t, i :: rest =>
      t ≤ i.started_at ∧
      ((∃ e, i.ended_at = some e ∧ i.started_at ≤ e ∧ ChainedFrom e rest) ∨
       (i.ended_at = none ∧ rest = []))

/-- The start-timestamp lower bound carried by a scan state. -/
def stLB : ScanState → Int → Int
  | none, t => t
  | some (_, s), _ => s

lemma chainedFrom_mono {t t' : Int} (h : t' ≤ t) :
    ∀ {l : List BusyInterval}, ChainedFrom t l → ChainedFrom t' l := by
  intro l hc
  cases l with
  | nil => trivial
  | cons i rest =>
      simp only [ChainedFrom] at hc ⊢
      exact ⟨le_trans h hc.1, hc.2⟩

/-- Running the loop from any compatible state yields a chained interval
list, provided the events are sorted and all at or after the bound. -/
lemma runEvents_chained :
    ∀ (events : List ChangeEvent) (st : ScanState) (t : Int),
      events.Pairwise (fun a b => a.changed_at ≤ b.changed_at) →
      (∀ e ∈ events, t ≤ e.changed_at) →
      stLB st t ≤ t →
      ChainedFrom (stLB st t) (runEvents st events) := by
  intro events
  induction events with
  | nil =>
      intro st t _ _ _
      cases st with
      | none => simp [runEvents, ChainedFrom]
      | some ps =>
          obtain ⟨p, s⟩ := ps
          simp [runEvents, ChainedFrom, stLB]
  | cons e rest ih =>
      intro st t hpw hts hst
      have hte : t ≤ e.changed_at := hts e (by simp)
      have hpw' := List.pairwise_cons.mp hpw
      have hafter : ∀ e' ∈ rest, e.changed_at ≤ e'.changed_at := hpw'.1
      cases st with
      | none =>
          by_cases hb : upperStr e.new_state = "BUSY" ∧ pdNotna e.new_product_id
          · have step : stepEvent none e = (some (e.new_product_id, e.changed_at), []) := by
              simp [stepEvent, hb]
            have htail := ih (some (e.new_product_id, e.changed_at)) e.changed_at
              hpw'.2 hafter (le_refl _)
            simp only [stLB] at htail ⊢
            rw [runEvents, step]
            exact chainedFrom_mono hte htail
          · have step : stepEvent none e = (none, []) := by
              simp [stepEvent, hb]
            have htail := ih none e.changed_at hpw'.2 hafter (le_refl _)
            simp only [stLB] at htail ⊢
            rw [runEvents, step]
            exact chainedFrom_mono hte htail
      | some ps =>
          obtain ⟨p, s⟩ := ps
          simp only [stLB] at hst ⊢
          by_cases hb : upperStr e.new_state = "BUSY"
          · by_cases hne : pdNeq e.new_product_id p
            · have step : stepEvent (some (p, s)) e =
                  (some (e.new_product_id, e.changed_at),
                    [⟨p, s, some e.changed_at⟩]) := by
                simp [stepEvent, hb, hne]
              have htail := ih (some (e.new_product_id, e.changed_at)) e.changed_at
                hpw'.2 hafter (le_refl _)
              simp only [stLB] at htail
              rw [runEvents, step]
              refine ⟨le_refl s, Or.inl ⟨e.changed_at, rfl, le_trans hst hte, htail⟩⟩
            · have step : stepEvent (some (p, s)) e = (some (p, s), []) := by
                simp [stepEvent, hb, hne]
              have htail := ih (some (p, s)) e.changed_at hpw'.2 hafter
                (le_trans hst hte)
              simp only [stLB] at htail
              rw [runEvents, step]
              exact htail
          · have step : stepEvent (some (p, s)) e =
                (none, [⟨p, s, some e.changed_at⟩]) := by
              simp [stepEvent, hb]
            have htail := ih none e.changed_at hpw'.2 hafter (le_refl _)
            simp only [stLB] at htail
            rw [runEvents, step]
            exact ⟨le_refl s, Or.inl ⟨e.changed_at, rfl, le_trans hst hte, htail⟩⟩

lemma chained_le_start :
    ∀ {t : Int} {l : List BusyInterval}, ChainedFrom t l →
      ∀ i ∈ l, t ≤ i.started_at := by
  intro t l
  induction l generalizing t with
  | nil => simp
  | cons i rest ih =>
      intro hc j hj
      obtain ⟨h1, h2⟩ := hc
      rcases List.mem_cons.mp hj with rfl | hj'
      · exact h1
      · rcases h2 with ⟨e, _, hse, hch⟩ | ⟨_, hr⟩
        · exact le_trans (le_trans h1 hse) (ih hch j hj')
        · rw [hr] at hj'
          simp at hj'

lemma chained_pairwise :
    ∀ {t : Int} {l : List BusyInterval}, ChainedFrom t l →
      l.Pairwise (fun a b => a.started_at ≤ b.started_at ∧
        ∃ ea, a.ended_at = some ea ∧ a.started_at ≤ ea ∧ ea ≤ b.started_at) := by
  intro t l
  induction l generalizing t with
  | nil => simp
  | cons i rest ih =>
      intro hc
      obtain ⟨_, h2⟩ := hc
      rcases h2 with ⟨e, he, hse, hch⟩ | ⟨_, hr⟩
      · refine List.pairwise_cons.mpr ⟨?_, ih hch⟩
        intro b hb
        have hb' := chained_le_start hch b hb
        exact ⟨le_trans hse hb', e, he, hse, hb'⟩
      · rw [hr]
        simp

lemma chained_open_last :
    ∀ {t : Int} {l : List BusyInterval}, ChainedFrom t l →
      ∀ (k : ℕ) (hk : k < l.length),
        (l.get ⟨k, hk⟩).ended_at = none → k = l.length - 1 := by
  intro t l
  induction l generalizing t with
  | nil =>
      intro _ k hk
      simp at hk
  | cons i rest ih =>
      intro hc k hk hnone
      obtain ⟨_, h2⟩ := hc
      cases k with
      | zero =>
          rcases h2 with ⟨e, he, _, _⟩ | ⟨_, hr⟩
          · simp only [List.get] at hnone
            rw [hnone] at he
            cases he
          · rw [hr]
            rfl
      | succ k' =>
          rcases h2 with ⟨e, he, hse, hch⟩ | ⟨_, hr⟩
          · have hk' : k' < rest.length := by
              simpa using hk
            have := ih hch k' hk' (by simpa using hnone)
            have hpos : 1 ≤ rest.length := by omega
            simp only [List.length_cons]
            omega
          · rw [hr] at hk
            simp at hk

/-- The two invariant conclusions for a station's interval list: pairwise
chaining (every earlier interval is closed, well-formed and ends at or
before every later start — hence non-overlap and chronological order by
start) and open-only-last. -/
def IntervalInvariants (l : List BusyInterval) : Prop :=
  l.Pairwise (fun a b => a.started_at ≤ b.started_at ∧
    ∃ ea, a.ended_at = some ea ∧ a.started_at ≤ ea ∧ ea ≤ b.started_at) ∧
  ∀ (k : ℕ) (hk : k < l.length),
    (l.get ⟨k, hk⟩).ended_at = none → k = l.length - 1

lemma foldr_min_le (l : List Int) (a : Int) : ∀ x ∈ l, l.foldr min a ≤ x := by
  induction l with
  | nil => simp
  | cons y l ih =>
      intro x hx
      rcases List.mem_cons.mp hx with rfl | hx'
      · simp [min_le_left]
      · exact le_trans (by simp [min_le_right]) (ih x hx')

/-- C3 — for a station whose events are chronologically ordered, the
intervals emitted by `build_busy_intervals` are pairwise non-overlapping
(each earlier interval is closed and ends at or before the later one's
start), chronologically ordered by start, and an interval with missing
`ended_at` can only be the last one (hence at most one is open). -/
theorem c3_interval_invariants (events : List ChangeEvent)
    (h : SortedEvents events) : IntervalInvariants (build_busy_intervals events) := by
  have hch : ChainedFrom ((events.map (·.changed_at)).foldr min 0)
      (build_busy_intervals events) := by
    have := runEvents_chained events none ((events.map (·.changed_at)).foldr min 0)
      h (fun e he => foldr_min_le _ _ _ (List.mem_map_of_mem _ he)) (le_refl _)
    simpa [stLB, build_busy_intervals] using this
  exact ⟨chained_pairwise hch, fun k hk => chained_open_last hch k hk⟩

/-- Witness for C3 at a concrete sorted event list. -/
theorem c3_interval_invariants_witness :
    SortedEvents [⟨"BUSY", some 1, 0⟩, ⟨"BUSY", some 2, 4⟩, ⟨"IDLE", none, 9⟩] ∧
    IntervalInvariants (build_busy_intervals
      [⟨"BUSY", some 1, 0⟩, ⟨"BUSY", some 2, 4⟩, ⟨"IDLE", none, 9⟩]) :=
  ⟨by constructor <;> simp,
   c3_interval_invariants _ (by constructor <;> simp)⟩

/-! ## C2 — incremental rolling-window active-set maintenance
(`src/app/aggregations.py`, `build_rolling_window_metrics`)

Days are indexed by their offset into `full_dates`; `sets d` is the set
of stations active on day `d` (`station_sets_map`, whose keys all lie on
the grid because the input rows were restricted to it, so a lookup
before day 0 yields the empty set). -/

/-- The reference-count dictionary `station_presence`: its key set
(`live`) and the stored counts (`cnt`, 0 for absent keys). -/
structure RollState (S : Type) [DecidableEq S] where
  live : Finset S
  cnt : S → Int

/-- "On entering day `d`, increment the count for every station active on
`d`": the first inner `for` loop of the day, written as its simultaneous
effect (each station occurs at most once in a day's set). -/
def enterDay {S : Type} [DecidableEq S] (st : RollState S) (todays : Finset S) :
    RollState S :=
  { live := st.live ∪ todays,
    cnt := fun u => if u ∈ todays then st.cnt u + 1 else st.cnt u }

/-- "On leaving day `d − W`, decrement the count for every station active
on that day and evict any station whose count reaches 0": the second
inner loop — `next_count = get(u, 0) - 1`, the key popped when
`next_count ≤ 0`, else stored back. -/
def leaveDay {S : Type} [DecidableEq S] (st : RollState S) (drops : Finset S) :
    RollState S :=
  { live := st.live \ drops.filter (fun u => st.cnt u - 1 ≤ 0),
    cnt := fun u =>
      if u ∈ drops then (if st.cnt u - 1 ≤ 0 then 0 else st.cnt u - 1)
      else st.cnt u }

/-- One iteration of the `for current_date in full_dates` loop:
enter `current_date`, then drop `drop_date = current_date - window_days`
(the empty set when that date precedes the grid). -/
def stepDay {S : Type} [DecidableEq S] (sets : Nat → Finset S) (W : Nat)
    (st : RollState S) (d : Nat) : RollState S :=
  leaveDay (enterDay st (sets d)) (if W ≤ d then sets (d - W) else ∅)

/-- The dictionary state after processing days `0 .. d` (it starts empty). -/
def rollStateAfter {S : Type} [DecidableEq S] (sets : Nat → Finset S) (W : Nat) :
    Nat → RollState S
  | 0 => stepDay sets W ⟨∅, fun _ => 0⟩ 0
  | d + 1 => stepDay sets W (rollStateAfter sets W d) (d + 1)

/-- `active_stations_window` for the day at offset `d`: the length of the
dictionary recorded after that day's enter/leave updates. -/
def active_stations_window {S : Type} [DecidableEq S] (sets : Nat → Finset S)
    (W d : Nat) : Nat :=
  (rollStateAfter sets W d).live.card

lemma mem_biUnion_pos_card {S : Type} [DecidableEq S] (I : Finset Nat)
    (sets : Nat → Finset S) (u : S) :
    u ∈ I.biUnion sets ↔ 0 < (I.filter (fun j => u ∈ sets j)).card := by
  rw [Finset.card_pos, Finset.filter_nonempty_iff]
  simp [Finset.mem_biUnion]

/-- Invariant of the reference-count maintenance: after day `d` the dict's
key set is exactly the union of the daily active sets over the trailing
window `[d − W + 1, d]`, and each stored count is the number of window
days on which that station was active. -/
lemma rollState_invariant {S : Type} [DecidableEq S] (sets : Nat → Finset S)
    (W : Nat) (hW : 1 ≤ W) :
    ∀ d : Nat,
      (rollStateAfter sets W d).live = (Finset.Icc (d + 1 - W) d).biUnion sets ∧
      ∀ u, (rollStateAfter sets W d).cnt u =
        (((Finset.Icc (d + 1 - W) d).filter (fun j => u ∈ sets j)).card : Int) := by
  intro d
  induction d with
  | zero =>
      have hw0 : ¬ (W ≤ 0) := by omega
      have hIcc : Finset.Icc (0 + 1 - W) 0 = {0} := by
        have h0 : 0 + 1 - W = 0 := by omega
        rw [h0, Finset.Icc_self]
      constructor
      · simp [rollStateAfter, stepDay, enterDay, leaveDay, hw0, hIcc]
      · intro u
        simp only [rollStateAfter, stepDay, enterDay, leaveDay, hw0, if_false,
          Finset.not_mem_empty, hIcc, Finset.filter_singleton]
        split_ifs <;> simp_all
  | succ d ih =>
      obtain ⟨hlive, hcnt⟩ := ih
      set A := Finset.Icc (d + 1 - W) d with hA
      have hnotmem : d + 1 ∉ A := by
        simp [hA, Finset.mem_Icc]
      have hJ : Finset.Icc (d + 1 - W) (d + 1) = insert (d + 1) A := by
        ext j
        simp [hA, Finset.mem_Icc, Finset.mem_insert]
        omega
      -- counts after the entering loop
      have hcnt1 : ∀ u, (enterDay (rollStateAfter sets W d) (sets (d + 1))).cnt u =
          (((Finset.Icc (d + 1 - W) (d + 1)).filter (fun j => u ∈ sets j)).card : Int) := by
        intro u
        rw [hJ, Finset.filter_insert]
        simp only [enterDay]
        split_ifs with h
        · rw [Finset.card_insert_of_not_mem
            (fun hm => hnotmem (Finset.mem_of_mem_filter _ hm))]
          rw [hcnt u]
          push_cast
          ring
        · exact hcnt u
      have hlive1 : (enterDay (rollStateAfter sets W d) (sets (d + 1))).live =
          (Finset.Icc (d + 1 - W) (d + 1)).biUnion sets := by
        simp only [enterDay, hlive, hJ, Finset.biUnion_insert]
        exact Finset.union_comm _ _
      by_cases hc : W ≤ d + 1
      · -- a day leaves the window
        have hB : Finset.Icc (d + 1 - W) (d + 1)
            = insert (d + 1 - W) (Finset.Icc (d + 1 + 1 - W) (d + 1)) := by
          ext j
          simp [Finset.mem_Icc, Finset.mem_insert]
          omega
        have hrnot : d + 1 - W ∉ Finset.Icc (d + 1 + 1 - W) (d + 1) := by
          simp [Finset.mem_Icc]
          omega
        have hsplit : ∀ u,
            (((Finset.Icc (d + 1 - W) (d + 1)).filter (fun j => u ∈ sets j)).card : Int)
              = (((Finset.Icc (d + 1 + 1 - W) (d + 1)).filter (fun j => u ∈ sets j)).card : Int)
                + (if u ∈ sets (d + 1 - W) then 1 else 0) := by
          intro u
          rw [hB, Finset.filter_insert]
          split_ifs with h
          · rw [Finset.card_insert_of_not_mem
              (fun hm => hrnot (Finset.mem_of_mem_filter _ hm))]
            push_cast
            ring
          · simp
        have hdrop : (if W ≤ d + 1 then sets (d + 1 - W) else ∅) = sets (d + 1 - W) := by
          simp [hc]
        constructor
        · show (leaveDay _ _).live = _
          rw [leaveDay, hdrop]
          ext u
          rw [Finset.mem_sdiff, hlive1, mem_biUnion_pos_card, mem_biUnion_pos_card,
            Finset.mem_filter, hcnt1 u]
          by_cases hu : u ∈ sets (d + 1 - W)
          · have h2 : (((Finset.Icc (d + 1 - W) (d + 1)).filter
                (fun j => u ∈ sets j)).card : Int)
                = (((Finset.Icc (d + 1 + 1 - W) (d + 1)).filter
                    (fun j => u ∈ sets j)).card : Int) + 1 := by
              rw [hsplit u, if_pos hu]
            constructor
            · rintro ⟨hpos, hnot⟩
              have h3 : ¬ ((((Finset.Icc (d + 1 - W) (d + 1)).filter
                  (fun j => u ∈ sets j)).card : Int) - 1 ≤ 0) :=
                fun hle => hnot ⟨hu, hle⟩
              omega
            · intro hpos
              refine ⟨by omega, ?_⟩
              rintro ⟨_, hle⟩
              omega
          · have h2 : (((Finset.Icc (d + 1 - W) (d + 1)).filter
                (fun j => u ∈ sets j)).card : Int)
                = (((Finset.Icc (d + 1 + 1 - W) (d + 1)).filter
                    (fun j => u ∈ sets j)).card : Int) := by
              rw [hsplit u, if_neg hu]
              ring
            constructor
            · rintro ⟨hpos, _⟩
              omega
            · intro hpos
              exact ⟨by omega, fun hm => hu hm.1⟩
        · intro u
          show (leaveDay _ _).cnt u = _
          rw [leaveDay, hdrop]
          simp only
          have h1 := hcnt1 u
          have h2 := hsplit u
          by_cases hu : u ∈ sets (d + 1 - W)
          · simp only [hu, if_pos] at h2 ⊢
            rw [h1]
            split_ifs <;> omega
          · simp only [hu, if_neg, not_false_iff] at h2 ⊢
            rw [h1]
            omega
      · -- the whole window is still growing, nothing leaves
        have hdrop : (if W ≤ d + 1 then sets (d + 1 - W) else ∅) = (∅ : Finset S) := by
          simp [hc]
        have hsame : Finset.Icc (d + 1 + 1 - W) (d + 1)
            = Finset.Icc (d + 1 - W) (d + 1) := by
          have e1 : d + 1 + 1 - W = 0 := by omega
          have e2 : d + 1 - W = 0 := by omega
          rw [e1, e2]
        constructor
        · show (leaveDay _ _).live = _
          rw [leaveDay, hdrop]
          simp [hlive1, hsame]
        · intro u
          show (leaveDay _ _).cnt u = _
          rw [leaveDay, hdrop]
          simp [hcnt1 u, hsame]

/-- C2 — the incrementally maintained `active_stations_window(d)` equals
the number of distinct stations active on at least one day of the
trailing window `[d − W + 1, d]` (the fresh `W`-day set union), and in
particular never exceeds that count. -/
theorem c2_rolling_window_equivalence {S : Type} [DecidableEq S]
    (sets : Nat → Finset S) (W d : Nat) (hW : 1 ≤ W) :
    active_stations_window sets W d
        = ((Finset.Icc (d + 1 - W) d).biUnion sets).card ∧
    active_stations_window sets W d
        ≤ ((Finset.Icc (d + 1 - W) d).biUnion sets).card := by
  have h := (rollState_invariant sets W hW d).1
  have he : active_stations_window sets W d
      = ((Finset.Icc (d + 1 - W) d).biUnion sets).card := by
    rw [active_stations_window, h]
  exact ⟨he, le_of_eq he⟩

/-- Daily active sets of the spec's rolling scenario:
day 0 ↦ {A, B}, day 1 ↦ {B}, day 2 ↦ {A}. -/
def rollingScenarioSets : Nat → Finset Nat := fun d =>
  if d = 0 then {0, 1} else if d = 1 then {1} else if d = 2 then {0} else ∅

/-- Witness for C2: window 3 over the scenario's daily sets at day 2. -/
theorem c2_rolling_window_equivalence_witness :
    1 ≤ 3 ∧
    (active_stations_window rollingScenarioSets 3 2
        = ((Finset.Icc (2 + 1 - 3) 2).biUnion rollingScenarioSets).card ∧
     active_stations_window rollingScenarioSets 3 2
        ≤ ((Finset.Icc (2 + 1 - 3) 2).biUnion rollingScenarioSets).card) :=
  ⟨by decide, c2_rolling_window_equivalence rollingScenarioSets 3 2 (by decide)⟩

/-! ## C4 — demand heatmap (`src/app/aggregations.py`, `build_demand_heatmap`) -/

/-- A row of the filtered interval table, restricted to the columns read
by `build_demand_heatmap`. -/
structure HeatRow where
  started_at : Option Int
  duration_sec : Option ℚ
  deriving DecidableEq, Repr

/-- pandas `dt.dayofweek` (Monday = 0): Unix day 0 was a Thursday (= 3).
On `Int`, `/` and `%` are floor division and the nonnegative remainder
for positive divisors, matching pandas' day and time-of-day flooring. -/
def weekdayNum (t : Int) : Int := (t / 86400 + 3) % 7

/-- pandas `dt.hour`. -/
def hourOf (t : Int) : Int := t % 86400 / 3600

/-- The weekday label map of the source. -/
def weekdayName (w : Int) : String :=
  if w = 0 then "Mon" else if w = 1 then "Tue" else if w = 2 then "Wed"
  else if w = 3 then "Thu" else if w = 4 then "Fri" else if w = 5 then "Sat"
  else "Sun"

/-- The rows surviving `dropna(subset=["started_at", "duration_sec"])`,
as (timestamp, duration) pairs. -/
def heatBase (rows : List HeatRow) : List (Int × ℚ) :=
  rows.filterMap (fun r =>
    match r.started_at, r.duration_sec with
    | some t, some dsec => some (t, dsec)
    | _, _ => none)

/-- The full cross-product grid of (weekday, hour) keys, in the sorted
order in which `pd.MultiIndex.from_product` (and the final
`sort_values`) produces it. -/
def heatGrid : List (Int × Int) :=
  ((List.range 7).map (fun w => (w : Int))).flatMap (fun w =>
    ((List.range 24).map (fun h => (h : Int))).map (fun h => (w, h)))

/-- One output cell of the heatmap. -/
structure HeatCell where
  weekday_num : Int
  weekday : String
  hour : Int
  busy_hours : ℚ
  deriving DecidableEq, Repr

/-- `build_demand_heatmap`: an empty (or fully dropped) input returns the
typed empty table; otherwise the per-(weekday, hour) duration sums are
left-merged onto the full 7 × 24 grid with missing cells 0-filled: every
grid key carries the summed hours of its matching base rows (0 when none
match, since the sum of the empty match list is 0). -/
def build_demand_heatmap (rows : List HeatRow) : List HeatCell :=
  let base := heatBase rows
  if base = [] then []
  else
    heatGrid.map (fun wh =>
      { weekday_num := wh.1, weekday := weekdayName wh.1, hour := wh.2,
        busy_hours :=
          ((base.filter (fun p =>
              weekdayNum p.1 == wh.1 && hourOf p.1 == wh.2)).map (fun p => p.2)).sum
            / 3600 })

/-- C4 (amended) — whenever at least one input row survives the dropna,
`build_demand_heatmap` returns exactly 168 rows, one per (weekday, hour)
pair of the full grid in order, with `busy_hours` 0 for every cell that
has no matching data; an empty or fully-dropped input instead returns the
typed empty table (0 rows, per the engine-wide empty-input rule). -/
theorem c4_heatmap_full_grid (rows : List HeatRow) :
    (heatBase rows = [] → build_demand_heatmap rows = []) ∧
    (heatBase rows ≠ [] →
      (build_demand_heatmap rows).length = 168 ∧
      (build_demand_heatmap rows).map (fun c => (c.weekday_num, c.hour)) = heatGrid ∧
      ∀ c ∈ build_demand_heatmap rows,
        (∀ p ∈ heatBase rows,
          ¬(weekdayNum p.1 = c.weekday_num ∧ hourOf p.1 = c.hour)) →
        c.busy_hours = 0) := by
  constructor
  · intro h
    simp [build_demand_heatmap, h]
  · intro h
    have hbd : build_demand_heatmap rows = heatGrid.map (fun wh =>
        ({ weekday_num := wh.1, weekday := weekdayName wh.1, hour := wh.2,
           busy_hours :=
             (((heatBase rows).filter (fun p =>
                 weekdayNum p.1 == wh.1 && hourOf p.1 == wh.2)).map (fun p => p.2)).sum
               / 3600 } : HeatCell)) := if_neg h
    have hkeys : (build_demand_heatmap rows).map (fun c => (c.weekday_num, c.hour))
        = heatGrid := by
      rw [hbd, List.map_map]
      have hfun : ((fun c : HeatCell => (c.weekday_num, c.hour)) ∘ (fun wh : Int × Int =>
          ({ weekday_num := wh.1, weekday := weekdayName wh.1, hour := wh.2,
             busy_hours :=
               (((heatBase rows).filter (fun p =>
                   weekdayNum p.1 == wh.1 && hourOf p.1 == wh.2)).map (fun p => p.2)).sum
                 / 3600 } : HeatCell))) = id := by
        funext wh
        exact Prod.mk.eta
      rw [hfun, List.map_id]
    refine ⟨?_, hkeys, ?_⟩
    · have hlen := congrArg List.length hkeys
      rw [List.length_map] at hlen
      rw [hlen]
      rfl
    · intro c hc hnone
      rw [hbd] at hc
      obtain ⟨wh, _, hcell⟩ := List.mem_map.mp hc
      subst hcell
      have hfil : (heatBase rows).filter
          (fun p => weekdayNum p.1 == wh.1 && hourOf p.1 == wh.2) = [] := by
        rw [List.filter_eq_nil_iff]
        intro p hp
        have hnp := hnone p hp
        simp only [Bool.and_eq_true, beq_iff_eq]
        intro hcontra
        exact hnp ⟨hcontra.1, hcontra.2⟩
      simp [hfil]

/-- Counterexample for C4 as stated: on the empty input table the
heatmap has 0 rows, not 168. -/
theorem c4_heatmap_counterexample : (build_demand_heatmap []).length ≠ 168 := by
  decide

/-- Witness for C4 at a one-row input. -/
theorem c4_heatmap_full_grid_witness :
    heatBase [⟨some 0, some 3600⟩] ≠ [] ∧
    (build_demand_heatmap [⟨some 0, some 3600⟩]).length = 168 :=
  ⟨by decide, ((c4_heatmap_full_grid [⟨some 0, some 3600⟩]).2 (by decide)).1⟩

/-! ## C6 — free-trial boolean coercion
(`src/app/aggregations.py`, `build_free_trial_impact`) -/

/-- numpy's float→int cast (`astype(int)`): truncation toward zero. -/
def truncToInt (q : ℚ) : Int := if 0 ≤ q then ⌊q⌋ else ⌈q⌉

/-- The derived `is_free_trial` column of `build_free_trial_impact`:
`pd.to_numeric(base["free_trial"], errors="coerce").fillna(0).astype(int) == 1`.
The input cell is `none` when the original value is missing or
non-numeric (both coerce to NaN, which `fillna` turns into 0). -/
def is_free_trial (v : Option ℚ) : Bool := truncToInt (v.getD 0) == 1

/-- C6 (amended) — `is_free_trial` is true iff the numeric value
truncated toward zero equals 1, i.e. iff the value lies in `[1, 2)`
(so among integers exactly 1); missing and non-numeric values map to
false, but non-integer numerics in `(1, 2)` such as 1.5 also map to
true, contrary to the claim's "equals exactly 1". -/
theorem c6_free_trial_coercion (v : Option ℚ) :
    is_free_trial v = true ↔ ∃ q, v = some q ∧ 1 ≤ q ∧ q < 2 := by
  cases v with
  | none =>
      simp [is_free_trial, truncToInt]
  | some q =>
      simp only [is_free_trial, Option.getD, beq_iff_eq]
      constructor
      · intro ht
        by_cases h : 0 ≤ q
        · rw [truncToInt, if_pos h] at ht
          obtain ⟨hl, hr⟩ := Int.floor_eq_iff.mp ht
          push_cast at hl hr
          exact ⟨q, rfl, hl, by linarith⟩
        · rw [truncToInt, if_neg h] at ht
          have hc : ⌈q⌉ ≤ 0 := Int.ceil_le.mpr (by push_cast; linarith [not_le.mp h])
          omega
      · rintro ⟨q', hq', h1, h2⟩
        obtain rfl : q = q' := Option.some_inj.mp hq'
        have h0 : (0 : ℚ) ≤ q := le_trans (by norm_num) h1
        rw [truncToInt, if_pos h0]
        rw [Int.floor_eq_iff]
        refine ⟨by exact_mod_cast h1, by push_cast; linarith⟩

/-- Counterexample for C6 as stated: the numeric value 1.5 is not equal
to 1, yet `is_free_trial` maps it to true (the `astype(int)` truncation
sends 1.5 to 1). -/
theorem c6_truncation_counterexample :
    is_free_trial (some (3 / 2)) = true ∧ (3 / 2 : ℚ) ≠ 1 := by
  constructor
  · simp only [is_free_trial, Option.getD, truncToInt, beq_iff_eq]
    norm_num
  · norm_num

/-! ## C7 — station retention
(`src/app/aggregations.py`, `build_station_retention_metrics`) -/

/-- A row of the filtered interval table, restricted to the columns read
by `build_station_retention_metrics`. -/
structure RetInput where
  started_at : Option Int
  uuid : Option Nat
  deriving DecidableEq, Repr

/-- The rows surviving `dropna(subset=["started_at", "uuid"])`, with
`started_at` day-normalized, as (date, uuid) pairs. -/
def retBase (rows : List RetInput) : List (Int × Nat) :=
  rows.filterMap (fun r =>
    match r.started_at, r.uuid with
    | some t, some u => some (t / 86400, u)
    | _, _ => none)

/-- `base["date"].max()`, the anchor of both windows (only used on a
nonempty base; the default is never reached there). -/
def retAnchor (rows : List RetInput) : Int :=
  match retBase rows with
  | [] => 0
  | p :: rest => (rest.map (fun q => q.1)).foldl max p.1

/-- `set(base.loc[(date >= lo) & (date <= hi), "uuid"].unique())`. -/
def activeSet (rows : List RetInput) (lo hi : Int) : Finset Nat :=
  (((retBase rows).filter (fun p => decide (lo ≤ p.1 ∧ p.1 ≤ hi))).map
    (fun p => p.2)).toFinset

/-- One output row of the retention table. -/
structure RetentionRow where
  window_days : Nat
  previous_active_stations : Nat
  current_active_stations : Nat
  retained_stations : Nat
  new_stations : Nat
  churned_stations : Nat
  retention_pct : ℚ
  deriving DecidableEq, Repr

/-- The loop body of `build_station_retention_metrics` for one window
length. -/
def retentionRowFor (rows : List RetInput) (window_days : Nat) : RetentionRow :=
  let end_date := retAnchor rows
  let current_start := end_date - ((window_days : Int) - 1)
  let previous_end := current_start - 1
  let previous_start := previous_end - ((window_days : Int) - 1)
  let current_set := activeSet rows current_start end_date
  let previous_set := activeSet rows previous_start previous_end
  let retained := previous_set ∩ current_set
  let new_set := current_set \ previous_set
  let churned := previous_set \ current_set
  { window_days := window_days,
    previous_active_stations := previous_set.card,
    current_active_stations := current_set.card,
    retained_stations := retained.card,
    new_stations := new_set.card,
    churned_stations := churned.card,
    retention_pct :=
      if previous_set = ∅ then 0
      else (retained.card : ℚ) / (previous_set.card : ℚ) * 100 }

/-- `build_station_retention_metrics`: empty (or fully dropped) input
yields the typed empty table, else one row per window in `[7, 30]`. -/
def build_station_retention_metrics (rows : List RetInput) : List RetentionRow :=
  if retBase rows = [] then []
  else [retentionRowFor rows 7, retentionRowFor rows 30]

/-- Spec-side distinct active stations of a date window, read directly
off the base relation as a finite set image. -/
def specActive (rows : List RetInput) (lo hi : Int) : Finset Nat :=
  ((retBase rows).toFinset.filter (fun p => lo ≤ p.1 ∧ p.1 ≤ hi)).image
    (fun p => p.2)

/-- The claim's current window: `[anchor − (W − 1), anchor]`. -/
def curS (rows : List RetInput) (W : Nat) : Finset Nat :=
  specActive rows (retAnchor rows - ((W : Int) - 1)) (retAnchor rows)

/-- The claim's previous window, the equal-length immediately preceding
one: `[anchor − (2W − 1), anchor − W]`. -/
def prevS (rows : List RetInput) (W : Nat) : Finset Nat :=
  specActive rows (retAnchor rows - (2 * (W : Int) - 1)) (retAnchor rows - (W : Int))

lemma activeSet_eq_specActive (rows : List RetInput) (lo hi : Int) :
    activeSet rows lo hi = specActive rows lo hi := by
  ext u
  simp only [activeSet, specActive, List.mem_toFinset, List.mem_map,
    List.mem_filter, Finset.mem_image, Finset.mem_filter, decide_eq_true_eq]

lemma activeSet_cur (rows : List RetInput) (W : Nat) :
    activeSet rows (retAnchor rows - ((W : Int) - 1)) (retAnchor rows)
      = curS rows W := by
  rw [curS, activeSet_eq_specActive]

lemma activeSet_prev (rows : List RetInput) (W : Nat) :
    activeSet rows (retAnchor rows - ((W : Int) - 1) - 1 - ((W : Int) - 1))
        (retAnchor rows - ((W : Int) - 1) - 1)
      = prevS rows W := by
  have e1 : retAnchor rows - ((W : Int) - 1) - 1 - ((W : Int) - 1)
      = retAnchor rows - (2 * (W : Int) - 1) := by ring
  have e2 : retAnchor rows - ((W : Int) - 1) - 1 = retAnchor rows - (W : Int) := by
    ring
  rw [e1, e2, prevS, activeSet_eq_specActive]

/-- The C7 specification at one window: the emitted row for window `W`
reports `|current|`, `|previous|`, `|current ∩ previous|`,
`|current − previous|`, `|previous − current|` and
`|retained| / |previous| × 100` (0 on an empty previous window), with the
windows anchored at the observed maximum date. -/
def RetentionSpecAt (rows : List RetInput) (W : Nat) : Prop :=
  ∃ row ∈ build_station_retention_metrics rows,
    row.window_days = W ∧
    row.current_active_stations = (curS rows W).card ∧
    row.previous_active_stations = (prevS rows W).card ∧
    row.retained_stations = (curS rows W ∩ prevS rows W).card ∧
    row.new_stations = (curS rows W \ prevS rows W).card ∧
    row.churned_stations = (prevS rows W \ curS rows W).card ∧
    row.retention_pct =
      (if (prevS rows W).card = 0 then 0
       else ((curS rows W ∩ prevS rows W).card : ℚ) / ((prevS rows W).card : ℚ) * 100)

/-- The spec's retention scenario: previous window active {A, B, C},
current window active {B, C, D} (anchor day 20, stations 0, 1, 2, 3). -/
def c7ExampleRows : List RetInput :=
  [⟨some (13 * 86400), some 0⟩, ⟨some (13 * 86400), some 1⟩,
   ⟨some (13 * 86400), some 2⟩, ⟨some (20 * 86400), some 1⟩,
   ⟨some (20 * 86400), some 2⟩, ⟨some (20 * 86400), some 3⟩]

/-- C7 — for every nonempty base and each window `W ∈ {7, 30}`,
`build_station_retention_metrics` emits the retained/new/churned set
cardinalities and the guarded retention percentage of the claim; on the
spec's scenario ({A,B,C} then {B,C,D}) it reports 3/3/2/1/1 and
retention 200/3 ≈ 66.67 for the 7-day window. -/
theorem c7_retention_windows :
    (∀ (rows : List RetInput), retBase rows ≠ [] →
        ∀ W : Nat, W = 7 ∨ W = 30 → RetentionSpecAt rows W) ∧
    build_station_retention_metrics c7ExampleRows =
      [⟨7, 3, 3, 2, 1, 1, 200 / 3⟩, ⟨30, 0, 4, 0, 4, 0, 0⟩] := by
  constructor
  · intro rows hne W hW
    have hmem : retentionRowFor rows W ∈ build_station_retention_metrics rows := by
      rw [build_station_retention_metrics, if_neg hne]
      rcases hW with rfl | rfl
      · exact List.mem_cons_self _ _
      · exact List.mem_cons_of_mem _ (List.mem_cons_self _ _)
    refine ⟨retentionRowFor rows W, hmem, ?_, ?_, ?_, ?_, ?_, ?_, ?_⟩
    · simp only [retentionRowFor]
    · simp only [retentionRowFor]
      rw [activeSet_cur]
    · simp only [retentionRowFor]
      rw [activeSet_prev]
    · simp only [retentionRowFor]
      rw [activeSet_cur, activeSet_prev, Finset.inter_comm]
    · simp only [retentionRowFor]
      rw [activeSet_cur, activeSet_prev]
    · simp only [retentionRowFor]
      rw [activeSet_cur, activeSet_prev]
    · simp only [retentionRowFor]
      rw [activeSet_cur, activeSet_prev, Finset.inter_comm]
      simp only [Finset.card_eq_zero]
  · rw [build_station_retention_metrics, if_neg (by decide)]
    have e7 : retentionRowFor c7ExampleRows 7 = ⟨7, 3, 3, 2, 1, 1, 200 / 3⟩ := by
      have h1 : activeSet c7ExampleRows
          (retAnchor c7ExampleRows - (((7 : Nat) : Int) - 1))
          (retAnchor c7ExampleRows) = {1, 2, 3} := by decide
      have h2 : activeSet c7ExampleRows
          (retAnchor c7ExampleRows - (((7 : Nat) : Int) - 1) - 1 - (((7 : Nat) : Int) - 1))
          (retAnchor c7ExampleRows - (((7 : Nat) : Int) - 1) - 1) = {0, 1, 2} := by
        decide
      have h3 : (({0, 1, 2} : Finset Nat) ∩ ({1, 2, 3} : Finset Nat)).card = 2 := by
        decide
      have h4 : (({1, 2, 3} : Finset Nat) \ ({0, 1, 2} : Finset Nat)).card = 1 := by
        decide
      have h5 : (({0, 1, 2} : Finset Nat) \ ({1, 2, 3} : Finset Nat)).card = 1 := by
        decide
      have h6 : ({1, 2, 3} : Finset Nat).card = 3 := by decide
      have h7 : ({0, 1, 2} : Finset Nat).card = 3 := by decide
      have h8 : ¬ (({0, 1, 2} : Finset Nat) = ∅) := by decide
      simp only [retentionRowFor, RetentionRow.mk.injEq]
      rw [h1, h2, if_neg h8, h3, h4, h5, h6, h7]
      norm_num
    have e30 : retentionRowFor c7ExampleRows 30 = ⟨30, 0, 4, 0, 4, 0, 0⟩ := by
      have h1 : activeSet c7ExampleRows
          (retAnchor c7ExampleRows - (((30 : Nat) : Int) - 1))
          (retAnchor c7ExampleRows) = {0, 1, 2, 3} := by decide
      have h2 : activeSet c7ExampleRows
          (retAnchor c7ExampleRows - (((30 : Nat) : Int) - 1) - 1 - (((30 : Nat) : Int) - 1))
          (retAnchor c7ExampleRows - (((30 : Nat) : Int) - 1) - 1)
            = (∅ : Finset Nat) := by decide
      have h3 : ({0, 1, 2, 3} : Finset Nat).card = 4 := by decide
      have h4 : (({0, 1, 2, 3} : Finset Nat) \ (∅ : Finset Nat)).card = 4 := by
        decide
      simp only [retentionRowFor, RetentionRow.mk.injEq]
      rw [h1, h2, if_pos (rfl : (∅ : Finset Nat) = ∅), h3, h4]
      norm_num [Finset.card_empty, Finset.empty_inter, Finset.empty_sdiff]
    rw [e7, e30]

/-- Witness for C7: the general statement applied to the scenario rows
with the 7-day window. -/
theorem c7_retention_windows_witness : RetentionSpecAt c7ExampleRows 7 :=
  c7_retention_windows.1 c7ExampleRows (by decide) 7 (Or.inl rfl)

/-! ## C8 — idle-station partition
(`src/app/aggregations.py`, `build_idle_station_metrics`, summary part) -/

/-- A station-scope row, restricted to the columns the summary reads. -/
structure ScopeRow where
  uuid : Option Nat
  city_name : Option String
  deriving DecidableEq, Repr

/-- `station_scope.drop_duplicates("uuid")`: keep the first row for each
uuid key; pandas treats all missing keys as one duplicate group, so the
key set is over `Option`. -/
def dropDupUuid : List ScopeRow → Finset (Option Nat) → List ScopeRow
  | [], _ => []
  | r :: rest, seen =>
      if r.uuid ∈ seen then dropDupUuid rest seen
      else r :: dropDupUuid rest (insert r.uuid seen)

/-- `Series.nunique()`: the number of distinct non-missing values. -/
def nuniqueOpt (l : List (Option Nat)) : Nat := (l.filterMap id).toFinset.card

/-- `scope["uuid"].isin(active_uuids)` on one cell: a missing uuid is
never in the set, which only contains non-missing values. -/
def optActive (active_uuids : Finset Nat) : Option Nat → Bool
  | some u => decide (u ∈ active_uuids)
  | none => false

/-- The summary dictionary of `build_idle_station_metrics`. -/
structure IdleSummary where
  stations_in_scope : Nat
  active_stations : Nat
  idle_stations : Nat
  idle_ratio_pct : ℚ
  deriving DecidableEq, Repr

/-- The summary part of `build_idle_station_metrics`; `filtered_uuids` is
the `uuid` column of the filtered interval table (the source forms
`set(filtered["uuid"].dropna().unique())` from it). -/
def build_idle_station_metrics (filtered_uuids : List (Option Nat))
    (station_scope : List ScopeRow) : IdleSummary :=
  if station_scope = [] then ⟨0, 0, 0, 0⟩
  else
    let scope := dropDupUuid station_scope ∅
    let active_uuids : Finset Nat := (filtered_uuids.filterMap id).toFinset
    let stations_in_scope := nuniqueOpt (scope.map (fun r => r.uuid))
    let active := (scope.filter (fun r => optActive active_uuids r.uuid)).length
    let idle := (scope.filter (fun r => ! optActive active_uuids r.uuid)).length
    ⟨stations_in_scope, active, idle,
      if stations_in_scope = 0 then 0
      else (idle : ℚ) / (stations_in_scope : ℚ) * 100⟩

lemma dropDup_filter_length (q : Option Nat → Bool) :
    ∀ (l : List ScopeRow) (seen : Finset (Option Nat)),
      ((dropDupUuid l seen).filter (fun r => q r.uuid)).length
        = (((l.map (fun r => r.uuid)).toFinset \ seen).filter
            (fun o => q o = true)).card := by
  intro l
  induction l with
  | nil =>
      intro seen
      simp [dropDupUuid]
  | cons r rest ih =>
      intro seen
      by_cases hmem : r.uuid ∈ seen
      · have hset : (((r :: rest).map (fun r => r.uuid)).toFinset \ seen)
            = ((rest.map (fun r => r.uuid)).toFinset \ seen) := by
          simp only [List.map_cons, List.toFinset_cons]
          ext x
          simp only [Finset.mem_sdiff, Finset.mem_insert]
          constructor
          · rintro ⟨hx | hx, hs⟩
            · exact absurd (hx ▸ hmem) hs
            · exact ⟨hx, hs⟩
          · rintro ⟨hx, hs⟩
            exact ⟨Or.inr hx, hs⟩
        rw [hset, ← ih seen]
        simp only [dropDupUuid, if_pos hmem]
      · have hins : (((r :: rest).map (fun r => r.uuid)).toFinset \ seen)
            = insert r.uuid ((rest.map (fun r => r.uuid)).toFinset \ seen) := by
          simp only [List.map_cons, List.toFinset_cons]
          exact Finset.insert_sdiff_of_not_mem _ hmem
        have hrest : ((rest.map (fun r => r.uuid)).toFinset \ insert r.uuid seen)
            = ((rest.map (fun r => r.uuid)).toFinset \ seen).erase r.uuid :=
          Finset.sdiff_insert _ _ _
        simp only [dropDupUuid, if_neg hmem, List.filter_cons]
        rw [hins, Finset.filter_insert]
        by_cases hq : q r.uuid = true
        · rw [if_pos hq, if_pos hq, List.length_cons, ih (insert r.uuid seen),
            hrest, Finset.filter_erase]
          by_cases hu : r.uuid ∈ ((rest.map (fun r => r.uuid)).toFinset \ seen).filter
              (fun o => q o = true)
          · rw [Finset.card_erase_of_mem hu, Finset.insert_eq_self.mpr hu]
            have hpos : 0 < (((rest.map (fun r => r.uuid)).toFinset \ seen).filter
                (fun o => q o = true)).card := Finset.card_pos.mpr ⟨_, hu⟩
            omega
          · rw [Finset.erase_eq_of_not_mem hu, Finset.card_insert_of_not_mem hu]
        · rw [if_neg hq, if_neg hq, ih (insert r.uuid seen), hrest,
            Finset.filter_erase]
          have hnot : r.uuid ∉ (Finset.filter (fun o => q o = true)
              ((rest.map (fun r => r.uuid)).toFinset \ seen)) := by
            intro hc
            exact hq (Finset.mem_filter.mp hc).2
          rw [Finset.erase_eq_of_not_mem hnot]

lemma dropDup_mem_of_mem :
    ∀ (l : List ScopeRow) (seen : Finset (Option Nat)) (r : ScopeRow),
      r ∈ dropDupUuid l seen → r ∈ l := by
  intro l
  induction l with
  | nil =>
      intro seen r h
      simp [dropDupUuid] at h
  | cons x rest ih =>
      intro seen r h
      by_cases hmem : x.uuid ∈ seen
      · simp only [dropDupUuid, if_pos hmem] at h
        exact List.mem_cons_of_mem _ (ih seen r h)
      · simp only [dropDupUuid, if_neg hmem, List.mem_cons] at h
        rcases h with rfl | h
        · exact List.mem_cons_self _ _
        · exact List.mem_cons_of_mem _ (ih _ r h)

lemma map_uuid_of_all_some :
    ∀ (l : List ScopeRow), (∀ r ∈ l, r.uuid.isSome) →
      l.map (fun r => r.uuid) = (l.filterMap (fun r => r.uuid)).map some := by
  intro l
  induction l with
  | nil => simp
  | cons r rest ih =>
      intro h
      obtain ⟨u, hu⟩ := Option.isSome_iff_exists.mp (h r (List.mem_cons_self _ _))
      simp only [List.map_cons, List.filterMap_cons, hu]
      rw [ih (fun r' hr' => h r' (List.mem_cons_of_mem _ hr'))]

lemma toFinset_map_some (l : List Nat) :
    (l.map some).toFinset = l.toFinset.image some := by
  induction l with
  | nil => simp
  | cons x rest ih => simp [ih]

lemma dropDup_keys :
    ∀ (l : List ScopeRow) (seen : Finset (Option Nat)),
      ((dropDupUuid l seen).map (fun r => r.uuid)).toFinset
        = (l.map (fun r => r.uuid)).toFinset \ seen := by
  intro l
  induction l with
  | nil =>
      intro seen
      simp [dropDupUuid]
  | cons r rest ih =>
      intro seen
      by_cases hmem : r.uuid ∈ seen
      · simp only [dropDupUuid, if_pos hmem]
        rw [ih seen]
        ext x
        simp only [List.map_cons, List.toFinset_cons, Finset.mem_sdiff,
          Finset.mem_insert]
        constructor
        · rintro ⟨hx, hs⟩
          exact ⟨Or.inr hx, hs⟩
        · rintro ⟨hx | hx, hs⟩
          · exact absurd (hx ▸ hmem) hs
          · exact ⟨hx, hs⟩
      · simp only [dropDupUuid, if_neg hmem, List.map_cons, List.toFinset_cons]
        rw [ih (insert r.uuid seen), Finset.sdiff_insert,
          Finset.insert_sdiff_of_not_mem _ hmem]
        by_cases hu : r.uuid ∈ (rest.map (fun r => r.uuid)).toFinset \ seen
        · rw [Finset.insert_erase hu]
          exact (Finset.insert_eq_self.mpr hu).symm
        · rw [Finset.erase_eq_of_not_mem hu]

/-- C8 (amended) — for every station-scope table whose rows all carry a
uuid (true of the metadata tables the engine receives) and every filtered
interval table: `stations_in_scope` is the number of distinct scope
uuids, `active_stations` counts the scope uuids appearing among the
filtered uuids, `idle_stations` those absent, the partition
`active + idle = stations_in_scope` holds, and `idle_ratio_pct` is
`idle / stations_in_scope × 100` guarded to 0 on an empty scope. -/
theorem c8_idle_partition (filtered_uuids : List (Option Nat))
    (station_scope : List ScopeRow)
    (h : ∀ r ∈ station_scope, r.uuid.isSome) :
    (build_idle_station_metrics filtered_uuids station_scope).stations_in_scope
        = ((station_scope.filterMap (fun r => r.uuid)).toFinset).card ∧
    (build_idle_station_metrics filtered_uuids station_scope).active_stations
        = ((station_scope.filterMap (fun r => r.uuid)).toFinset
            ∩ (filtered_uuids.filterMap id).toFinset).card ∧
    (build_idle_station_metrics filtered_uuids station_scope).idle_stations
        = ((station_scope.filterMap (fun r => r.uuid)).toFinset
            \ (filtered_uuids.filterMap id).toFinset).card ∧
    (build_idle_station_metrics filtered_uuids station_scope).active_stations
        + (build_idle_station_metrics filtered_uuids station_scope).idle_stations
        = (build_idle_station_metrics filtered_uuids station_scope).stations_in_scope ∧
    (build_idle_station_metrics filtered_uuids station_scope).idle_ratio_pct
        = (if (build_idle_station_metrics
                filtered_uuids station_scope).stations_in_scope = 0 then 0
           else ((build_idle_station_metrics
                    filtered_uuids station_scope).idle_stations : ℚ)
             / ((build_idle_station_metrics
                  filtered_uuids station_scope).stations_in_scope : ℚ) * 100) := by
  by_cases hsc : station_scope = []
  · subst hsc
    simp [build_idle_station_metrics]
  · have hscope_some : ∀ r ∈ dropDupUuid station_scope ∅, r.uuid.isSome :=
      fun r hr => h r (dropDup_mem_of_mem _ _ _ hr)
    have hkeys : ((station_scope.map (fun r => r.uuid)).toFinset)
        = ((station_scope.filterMap (fun r => r.uuid)).toFinset).image some := by
      rw [map_uuid_of_all_some station_scope h, toFinset_map_some]
    have hSetEq : ((dropDupUuid station_scope ∅).filterMap
          (fun r => r.uuid)).toFinset
        = (station_scope.filterMap (fun r => r.uuid)).toFinset := by
      apply Finset.image_injective (Option.some_injective Nat)
      rw [← toFinset_map_some, ← toFinset_map_some,
        ← map_uuid_of_all_some _ hscope_some,
        ← map_uuid_of_all_some station_scope h,
        dropDup_keys station_scope ∅, Finset.sdiff_empty]
    have hS : nuniqueOpt ((dropDupUuid station_scope ∅).map (fun r => r.uuid))
        = (station_scope.filterMap (fun r => r.uuid)).toFinset.card := by
      rw [nuniqueOpt]
      have hfm : ((dropDupUuid station_scope ∅).map (fun r => r.uuid)).filterMap id
          = (dropDupUuid station_scope ∅).filterMap (fun r => r.uuid) := by
        rw [List.filterMap_map]
        rfl
      rw [hfm, hSetEq]
    have hA0 := dropDup_filter_length
      (optActive ((filtered_uuids.filterMap id).toFinset)) station_scope ∅
    have hA : ((dropDupUuid station_scope ∅).filter
          (fun r => optActive ((filtered_uuids.filterMap id).toFinset) r.uuid)).length
        = ((station_scope.filterMap (fun r => r.uuid)).toFinset
            ∩ (filtered_uuids.filterMap id).toFinset).card := by
      rw [hA0, Finset.sdiff_empty, hkeys, Finset.filter_image,
        Finset.card_image_of_injective _ (Option.some_injective Nat)]
      congr 1
      ext u
      simp [optActive, Finset.mem_filter, Finset.mem_inter]
    have hI0 := dropDup_filter_length
      (fun o => ! optActive ((filtered_uuids.filterMap id).toFinset) o)
      station_scope ∅
    simp only [] at hI0
    have hI : ((dropDupUuid station_scope ∅).filter
          (fun r => ! optActive ((filtered_uuids.filterMap id).toFinset) r.uuid)).length
        = ((station_scope.filterMap (fun r => r.uuid)).toFinset
            \ (filtered_uuids.filterMap id).toFinset).card := by
      rw [hI0, Finset.sdiff_empty, hkeys, Finset.filter_image,
        Finset.card_image_of_injective _ (Option.some_injective Nat)]
      congr 1
      ext u
      simp [optActive, Finset.mem_filter, Finset.mem_sdiff]
    refine ⟨?_, ?_, ?_, ?_, ?_⟩
    · simp only [build_idle_station_metrics, if_neg hsc]
      exact hS
    · simp only [build_idle_station_metrics, if_neg hsc]
      exact hA
    · simp only [build_idle_station_metrics, if_neg hsc]
      exact hI
    · simp only [build_idle_station_metrics, if_neg hsc]
      rw [hA, hI, hS, Finset.card_inter_add_card_sdiff]
    · simp only [build_idle_station_metrics, if_neg hsc]

/-- Counterexample for C8 as stated: a scope table containing one row
with a missing uuid makes the partition fail — the row is counted idle
but `nunique` does not count it in `stations_in_scope`
(0 active + 1 idle ≠ 0 in scope). -/
theorem c8_null_uuid_counterexample :
    (build_idle_station_metrics [] [⟨none, some "X"⟩]).active_stations
        + (build_idle_station_metrics [] [⟨none, some "X"⟩]).idle_stations
      ≠ (build_idle_station_metrics [] [⟨none, some "X"⟩]).stations_in_scope := by
  decide

/-- Witness for C8 at a concrete scope and filtered column. -/
theorem c8_idle_partition_witness :
    (∀ r ∈ [(⟨some 1, some "A"⟩ : ScopeRow), ⟨some 2, some "A"⟩], r.uuid.isSome) ∧
    ((build_idle_station_metrics [some 1] [⟨some 1, some "A"⟩, ⟨some 2, some "A"⟩]).active_stations
        + (build_idle_station_metrics [some 1] [⟨some 1, some "A"⟩, ⟨some 2, some "A"⟩]).idle_stations
        = (build_idle_station_metrics [some 1]
            [⟨some 1, some "A"⟩, ⟨some 2, some "A"⟩]).stations_in_scope) :=
  ⟨by decide,
   (c8_idle_partition [some 1] [⟨some 1, some "A"⟩, ⟨some 2, some "A"⟩]
      (by decide)).2.2.2.1⟩

/-! ## C5 — zero-denominator handling in ratios
(`src/app/aggregations.py`: `build_group_ranking`, `build_city_ranking`,
`build_utilization_metrics`) -/

/-- A pandas float division result: finite, ±infinity or NaN. -/
inductive PFloat where
  | val (q : ℚ)
  | posInf
  | negInf
  | nan
  deriving DecidableEq, Repr

/-- IEEE-754 division of finite values: dividing by 0.0 yields NaN when
the numerator is 0 and ±inf otherwise. -/
def ieeeDiv (a b : ℚ) : PFloat :=
  if b = 0 then
    (if a = 0 then PFloat.nan else if 0 < a then PFloat.posInf else PFloat.negInf)
  else PFloat.val (a / b)

/-- Multiplication by the positive constant 100 (`* 100.0` after the
division): preserves ±inf and NaN. -/
def pfMul100 : PFloat → PFloat
  | PFloat.val q => PFloat.val (q * 100)
  | x => x

/-- `.replace([inf, -inf], 0).fillna(0)` applied to a float column. -/
def coerceZero : PFloat → ℚ
  | PFloat.val q => q
  | _ => 0

/-- A row of the input to `build_group_ranking`, restricted to the
columns it reads; `group_val` is the row's value of the grouping column
passed as `column` (`city_name` for `build_city_ranking`). -/
structure GroupRow where
  group_val : Option String
  uuid : Option Nat
  duration_sec : Option ℚ
  deriving DecidableEq, Repr

/-- One output row of `build_group_ranking`. -/
structure GroupRankRow where
  group : String
  duration_sec : ℚ
  n_stations : Nat
  duration_hours : ℚ
  hours_per_station : PFloat
  deriving DecidableEq, Repr

/-- `build_group_ranking`: group by the filled column, aggregate the
total seconds (`sum` skips missing values) and the distinct non-missing
station count (`nunique`), and derive hours and the raw, unguarded
`hours_per_station` division.  The final `sort_values` by hours
descending is a permutation of these rows and is omitted here (the
claims about this function are row-local). -/
def build_group_ranking (df : List GroupRow) : List GroupRankRow :=
  let key : GroupRow → String := fun r => r.group_val.getD "Unknown"
  let groups := (df.map key).dedup
  groups.map (fun g =>
    let rows := df.filter (fun r => key r == g)
    let dur := (rows.filterMap (fun r => r.duration_sec)).sum
    let n := (rows.filterMap (fun r => r.uuid)).toFinset.card
    { group := g, duration_sec := dur, n_stations := n,
      duration_hours := dur / 3600,
      hours_per_station := ieeeDiv (dur / 3600) ((n : Nat) : ℚ) })

/-- `build_city_ranking` has the identical body with
`column = "city_name"`; its rows are `build_group_ranking` rows whose
`group_val` is the row's `city_name`. -/
def build_city_ranking (df : List GroupRow) : List GroupRankRow :=
  build_group_ranking df

/-- A filtered-interval row as read by the per-city part of
`build_utilization_metrics`. -/
structure UtilRow where
  uuid : Option Nat
  city_name : Option String
  duration_sec : Option ℚ
  deriving DecidableEq, Repr

/-- A station-scope row as read by the same code. -/
structure UtilScopeRow where
  uuid : Option Nat
  city_name : Option String
  deriving DecidableEq, Repr

/-- One row of the per-city utilization table. -/
structure CityUtilRow where
  city : String
  busy_hours : ℚ
  station_count : Nat
  capacity_hours : ℚ
  utilization_pct : ℚ
  deriving DecidableEq, Repr

/-- The per-city table of `build_utilization_metrics` (lines 405-440 of
the source), given the day count already derived from the selected or
observed range: per-city busy hours from the filtered intervals; per-city
distinct station counts from the scope — from the intervals themselves
when the scope is empty — with a city absent from the scope getting count
0 (`fillna(0)` after the left merge); capacity `count × 24 × days`; and
`utilization_pct = busy / capacity × 100` with inf/NaN from a zero
capacity coerced to 0 by the explicit `replace`/`fillna`.  The final
`sort_values` (a permutation) is omitted; the claims are row-local. -/
def build_utilization_city (filtered : List UtilRow)
    (station_scope : List UtilScopeRow) (days : ℚ) : List CityUtilRow :=
  let fkey : UtilRow → String := fun r => r.city_name.getD "Unknown"
  let cities := (filtered.map fkey).dedup
  let scount : String → Nat := fun c =>
    if station_scope = [] then
      ((filtered.filter (fun r => fkey r == c)).filterMap
        (fun r => r.uuid)).toFinset.card
    else
      ((station_scope.filter
          (fun r => r.city_name.getD "Unknown" == c)).filterMap
        (fun r => r.uuid)).toFinset.card
  cities.map (fun c =>
    let busy := ((filtered.filter (fun r => fkey r == c)).filterMap
      (fun r => r.duration_sec)).sum / 3600
    let n := scount c
    { city := c, busy_hours := busy, station_count := n,
      capacity_hours := ((n : Nat) : ℚ) * 24 * days,
      utilization_pct :=
        coerceZero (pfMul100 (ieeeDiv busy (((n : Nat) : ℚ) * 24 * days))) })

/-- C5 (amended) — the per-city utilization percentage is explicitly
coerced to 0 whenever the city's capacity is 0 (zero-denominator never
surfaces as inf/NaN there), but the per-group `hours_per_station` in
`build_group_ranking` (and `build_city_ranking`) is a raw division: a
group whose distinct-station count is 0 yields an inf/NaN float, never a
finite value — in particular not 0 as the claim states. -/
theorem c5_ratio_zero_denominators :
    (∀ (filtered : List UtilRow) (station_scope : List UtilScopeRow) (days : ℚ),
      ∀ row ∈ build_utilization_city filtered station_scope days,
        row.capacity_hours = 0 → row.utilization_pct = 0) ∧
    (∀ (df : List GroupRow), ∀ g ∈ build_group_ranking df,
      g.n_stations = 0 →
        g.hours_per_station ≠ PFloat.val 0 ∧
        (g.hours_per_station = PFloat.posInf ∨
         g.hours_per_station = PFloat.negInf ∨
         g.hours_per_station = PFloat.nan)) := by
  constructor
  · intro filtered station_scope days row hrow hcap
    simp only [build_utilization_city, List.mem_map] at hrow
    obtain ⟨c, _, rfl⟩ := hrow
    dsimp only at hcap ⊢
    rw [hcap, ieeeDiv, if_pos rfl]
    split_ifs <;> simp [pfMul100, coerceZero]
  · intro df g hg hn
    simp only [build_group_ranking, List.mem_map] at hg
    obtain ⟨gname, _, rfl⟩ := hg
    dsimp only at hn ⊢
    rw [hn, Nat.cast_zero, ieeeDiv, if_pos rfl]
    split_ifs <;> simp

/-- The output row of `build_group_ranking` on a one-row table whose only
row has a missing uuid and an hour of busy time, as the code computes it. -/
def c5GroupRankEx : GroupRankRow :=
  { group := "A", duration_sec := 3600 + 0, n_stations := 0,
    duration_hours := (3600 + 0) / 3600,
    hours_per_station := ieeeDiv (((3600 : ℚ) + 0) / 3600) (((0 : Nat) : ℚ)) }

lemma c5GroupRank_eval :
    build_group_ranking [⟨some "A", none, some 3600⟩] = [c5GroupRankEx] := rfl

/-- Counterexample for C5 as stated: a group whose only row lacks a uuid
has denominator `n_stations = 0`, and `hours_per_station` comes out as
+inf, not 0. -/
theorem c5_unguarded_ratio_counterexample :
    (build_group_ranking [⟨some "A", none, some 3600⟩]).map
        (fun g => g.hours_per_station) = [PFloat.posInf] ∧
    PFloat.posInf ≠ PFloat.val 0 := by
  constructor
  · rw [c5GroupRank_eval]
    simp only [List.map_cons, List.map_nil, c5GroupRankEx]
    have hdiv : ieeeDiv (((3600 : ℚ) + 0) / 3600) (((0 : Nat) : ℚ))
        = PFloat.posInf := by
      rw [ieeeDiv]
      norm_num
    rw [hdiv]
  · decide

/-- Witness for C5: the amended theorem applied at the concrete one-row
group table with a missing uuid. -/
theorem c5_ratio_zero_denominators_witness :
    c5GroupRankEx.hours_per_station ≠ PFloat.val 0 ∧
    (c5GroupRankEx.hours_per_station = PFloat.posInf ∨
     c5GroupRankEx.hours_per_station = PFloat.negInf ∨
     c5GroupRankEx.hours_per_station = PFloat.nan) :=
  c5_ratio_zero_denominators.2 [⟨some "A", none, some 3600⟩] c5GroupRankEx
    (by rw [c5GroupRank_eval]; exact List.mem_singleton_self _) rfl

/-! ## C10 — sidebar filtering (`src/app/filters.py`, `apply_sidebar_filters`) -/

/-- One row of the enriched interval table, with the columns
`apply_sidebar_filters` touches. -/
structure EnrichedRow where
  uuid : Option Nat
  product_id : Option Nat
  city_name : Option String
  processor : Option String
  graphic_names : Option String
  duration_sec : Option ℚ
  free_trial : Option ℚ
  product_number : Option Int
  ram_bytes : Option Int
  graphic_ram_bytes : Option Int
  deriving DecidableEq, Repr

/-- The `SidebarFilters` value object of `filters.py`. -/
structure SidebarFilters where
  enable_uuid : Bool
  enable_prod : Bool
  enable_city : Bool
  enable_processor : Bool
  enable_graphic : Bool
  selected_uuids : List Nat
  selected_products : List Nat
  selected_cities : List String
  selected_processors : List String
  selected_graphics : List String
  free_trial_only : Bool
  product_number_range : Option (Int × Int)
  ram_range : Option (Int × Int)
  graphic_ram_range : Option (Int × Int)
  deriving DecidableEq, Repr

/-- `Series.isin(values)` on one cell: a missing value is in no list. -/
def isinOpt {α : Type} [DecidableEq α] (v : Option α) (l : List α) : Bool :=
  match v with
  | some x => decide (x ∈ l)
  | none => false

/-- `column == 1` on one cell: a missing value compares false. -/
def eqOneNum (v : Option ℚ) : Bool :=
  match v with
  | some x => decide (x = 1)
  | none => false

/-- `Series.between(lo, hi)` on one cell: false for a missing value. -/
def betweenOpt (v : Option Int) (lo hi : Int) : Bool :=
  match v with
  | some x => decide (lo ≤ x ∧ x ≤ hi)
  | none => false

/-- `apply_sidebar_filters`: the initial mask starts from
`duration_sec.notna()` and conjoins each enabled facet's `isin`; the
free-trial-only and the three range filters (applied only when the range
tuple is not `None` — Python truthiness of a tuple) then subset the
result. -/
def apply_sidebar_filters (df : List EnrichedRow) (f : SidebarFilters) :
    List EnrichedRow :=
  let mask : EnrichedRow → Bool := fun r =>
    r.duration_sec.isSome
    && (!f.enable_uuid || isinOpt r.uuid f.selected_uuids)
    && (!f.enable_prod || isinOpt r.product_id f.selected_products)
    && (!f.enable_city || isinOpt r.city_name f.selected_cities)
    && (!f.enable_processor || isinOpt r.processor f.selected_processors)
    && (!f.enable_graphic || isinOpt r.graphic_names f.selected_graphics)
  let step1 := df.filter mask
  let step2 :=
    if f.free_trial_only then step1.filter (fun r => eqOneNum r.free_trial)
    else step1
  let step3 :=
    match f.product_number_range with
    | some (lo, hi) => step2.filter (fun r => betweenOpt r.product_number lo hi)
    | none => step2
  let step4 :=
    match f.ram_range with
    | some (lo, hi) => step3.filter (fun r => betweenOpt r.ram_bytes lo hi)
    | none => step3
  match f.graphic_ram_range with
  | some (lo, hi) => step4.filter (fun r => betweenOpt r.graphic_ram_bytes lo hi)
  | none => step4

lemma mem_of_mem_range_filter {l : List EnrichedRow} {r : EnrichedRow}
    (o : Option (Int × Int)) (g : EnrichedRow → Int → Int → Bool)
    (hr : r ∈ (match o with
      | some (lo, hi) => l.filter (fun r' => g r' lo hi)
      | none => l)) : r ∈ l := by
  rcases o with _ | ⟨lo, hi⟩
  · exact hr
  · exact (List.mem_filter.mp hr).1

/-- C10 — every row surviving `apply_sidebar_filters` has a present
`duration_sec` (the mask's first conjunct), for every table and every
filter configuration (all facets disabled included); hence the open
intervals — the rows with missing duration — reach no downstream metric,
presence-based ones included. -/
theorem c10_filtered_duration_present (df : List EnrichedRow)
    (f : SidebarFilters) (r : EnrichedRow)
    (hr : r ∈ apply_sidebar_filters df f) : r.duration_sec.isSome = true := by
  simp only [apply_sidebar_filters] at hr
  have h4 := mem_of_mem_range_filter f.graphic_ram_range
    (fun r' lo hi => betweenOpt r'.graphic_ram_bytes lo hi) hr
  have h3 := mem_of_mem_range_filter f.ram_range
    (fun r' lo hi => betweenOpt r'.ram_bytes lo hi) h4
  have h2 := mem_of_mem_range_filter f.product_number_range
    (fun r' lo hi => betweenOpt r'.product_number lo hi) h3
  have h1 : r ∈ df.filter (fun r' =>
      r'.duration_sec.isSome
      && (!f.enable_uuid || isinOpt r'.uuid f.selected_uuids)
      && (!f.enable_prod || isinOpt r'.product_id f.selected_products)
      && (!f.enable_city || isinOpt r'.city_name f.selected_cities)
      && (!f.enable_processor || isinOpt r'.processor f.selected_processors)
      && (!f.enable_graphic || isinOpt r'.graphic_names f.selected_graphics)) := by
    by_cases hft : f.free_trial_only
    · rw [if_pos hft] at h2
      exact (List.mem_filter.mp h2).1
    · rw [if_neg hft] at h2
      exact h2
  have := (List.mem_filter.mp h1).2
  simp only [Bool.and_eq_true] at this
  exact this.1.1.1.1.1

/-- A sample enriched row with a present duration. -/
def c10ExRow : EnrichedRow :=
  ⟨some 1, some 2, some "C", some "P", some "G", some (5 : ℚ), some 0,
   some 3, some 4, some 5⟩

/-- The filter configuration with every facet disabled. -/
def c10ExFilters : SidebarFilters :=
  ⟨false, false, false, false, false, [], [], [], [], [], false, none, none, none⟩

/-- Witness for C10 at a concrete table and the all-disabled filters. -/
theorem c10_filtered_duration_present_witness :
    c10ExRow ∈ apply_sidebar_filters [c10ExRow] c10ExFilters ∧
    c10ExRow.duration_sec.isSome = true :=
  ⟨by decide,
   c10_filtered_duration_present [c10ExRow] c10ExFilters c10ExRow (by decide)⟩
